import Mathlib

/-!
Verification of the libcodepoint repository's front end (src/example.c)
against its natural-language specification.

The repository's visible source is the example front end `example.c`:
it parses a command line, extracts a code point argument, converts it
with `strtol(arg, NULL, 16)` and serializes the code point's attributes
either as JSON or as one line per attribute.  The query engine
(`codepoints.h`) is not part of the visible sources; where a claim is
about the engine we model it from the specification (see the doc
comments starting with "Modelled from the spec").

Everything below is a shallow embedding: C strings become `List Char`
or `String`, the `argv` array (past the program name) becomes
`List String`, and the observable behaviour of `main` becomes the
inductive `MainResult`.
-/

/-! ## C library character predicates (ctype.h / strtol, base 16)

These model the C standard library behaviour that `example.c` relies
on.  Characters are compared through their code (`Char.toNat`) so that
all arithmetic facts are visible to `omega`. -/

/-- C `isspace` in the default locale: space (32) and the control
characters 9..13 (tab, newline, vertical tab, form feed, carriage
return).  `strtol` skips these before parsing. -/
def isCSpace (c : Char) : Bool :=
  c.toNat == 32 || (9 ≤ c.toNat && c.toNat ≤ 13)

/-- Hexadecimal digit test: characters 0-9 (48..57), a-f (97..102),
A-F (65..70). -/
def isHexDigit (c : Char) : Bool :=
  (48 ≤ c.toNat && c.toNat ≤ 57) ||
  (97 ≤ c.toNat && c.toNat ≤ 102) ||
  (65 ≤ c.toNat && c.toNat ≤ 70)

/-- Numeric value of a hexadecimal digit. -/
def hexVal (c : Char) : Nat :=
  if 48 ≤ c.toNat && c.toNat ≤ 57 then c.toNat - 48
  else if 97 ≤ c.toNat && c.toNat ≤ 102 then c.toNat - 87
  else c.toNat - 55

/-- Value of a run of hexadecimal digits, most significant first
(the accumulation loop inside `strtol`). -/
def digitsVal (ds : List Char) : Nat :=
  ds.foldl (fun a c => 16 * a + hexVal c) 0

/-- Optional sign handling of `strtol`: a leading '+' (43) or '-' (45)
is consumed; the flag records whether the value is negated. -/
def afterSign (s : List Char) : Bool × List Char :=
  match s with
  | [] => (false, [])
  | c :: r =>
    if c.toNat == 43 then (false, r)
    else if c.toNat == 45 then (true, r)
    else (false, c :: r)

/-- The base-16 "0x"/"0X" skip of `strtol`.  `example.c` passes a NULL
`endptr`, so only the resulting numeric value is observable; skipping
"0x" unconditionally yields the same value as the C library's longest
initial subsequence rule (for "0x" or "0xZ" both read the value 0). -/
def after0x (s : List Char) : List Char :=
  match s with
  | a :: b :: rest =>
    if a.toNat == 48 && (b.toNat == 120 || b.toNat == 88) then rest else s
  | _ => s

/-- `strtol(s, NULL, 16)`: skip C whitespace, read an optional sign,
skip an optional "0x"/"0X", accumulate the longest run of hex digits
(value 0 if there are none), clamp to `LONG_MAX = 2^63 - 1` /
`LONG_MIN = -2^63` (64-bit targets) on overflow, negate if the sign
was '-'. -/
def strtol16 (s : List Char) : Int :=
  let s1 := s.dropWhile isCSpace
  let p := afterSign s1
  let ds := (after0x p.2).takeWhile isHexDigit
  let v : Int := (digitsVal ds : Int)
  if p.1 then (if 2 ^ 63 < v then -(2 ^ 63) else -v)
  else (if 2 ^ 63 - 1 < v then 2 ^ 63 - 1 else v)

/-! ## The front end (src/example.c) -/

/-- The "U+" / "u" skipping of example.c lines 70-77: if the first
character lowercases to 'u' (codes 117 'u' or 85 'U'), advance past
it, and past one following '+' (code 43) if present. -/
def stripU (s : List Char) : List Char :=
  match s with
  | [] => []
  | c :: rest =>
    if c.toNat == 117 || c.toNat == 85 then
      match rest with
      | [] => []
      | d :: rest2 => if d.toNat == 43 then rest2 else d :: rest2
    else c :: rest

/-- Conversion of the `long` returned by `strtol` to the 32-bit
`codepoint` type (example.c line 81): two's-complement wrap-around
into the signed 32-bit range, matching the spec's "32-bit code point"
and the `%d` formatting in example.c. -/
def toInt32 (n : Int) : Int :=
  (n + 2 ^ 31) % 2 ^ 32 - 2 ^ 31

/-- The code point value example.c computes from the chosen argument
(lines 66-81): strip the "U+"/"u" notation, parse the rest as a
base-16 `long`, convert to the 32-bit `codepoint` type. -/
def parseCodepoint (s : String) : Int :=
  toInt32 (strtol16 (stripU s.data))

/-- The option test of example.c line 45: `argv[i][0] == '-'`
('-' has code 45; an empty argument has `argv[i][0] == '\0'`). -/
def isOption (s : String) : Bool :=
  match s.data with
  | c :: _ => c.toNat == 45
  | [] => false

/-- One iteration of the argument loop of example.c lines 43-58.
The state is (last non-option argument seen, output_json flag);
`example.c` stores the argument's index, which is equivalent to
storing the argument itself. -/
def scanStep (st : Option String × Bool) (a : String) : Option String × Bool :=
  if isOption a then
    (st.1, if a == "--json" then true else st.2)
  else
    (some a, st.2)

/-- The whole argument loop of example.c lines 40-58, starting from
`codepoint_argument_index = -1` and `output_json = false`.  `args` is
`argv[1..argc-1]`. -/
def scanArgs (args : List String) : Option String × Bool :=
  args.foldl scanStep (none, false)

/-- The last non-option argument, if any: the argument whose index
ends up in `codepoint_argument_index`. -/
def lastNonOption (args : List String) : Option String :=
  (args.filter fun a => !isOption a).getLast?

/-- Observable behaviour of `main`: `usage` means `print_usage_and_quit`
ran (the usage line is printed and the process exits with status 1,
example.c lines 27-31); `query cp json` means the program called the
query-engine functions on the code point `cp`, printed their results in
JSON form iff `json`, and returned 0 (example.c lines 83-128). -/
inductive MainResult where
  | usage : MainResult
  | query : Int → Bool → MainResult
deriving DecidableEq

/-- The process exit status of each outcome: `exit(1)` inside
`print_usage_and_quit`, `return 0` at the end of `main`. -/
def MainResult.exitCode : MainResult → Nat
  | .usage => 1
  | .query _ _ => 0

/-- `main` of example.c as a function of `argv[1..]`:
quit with usage if there are no arguments (`argc < 2`, line 35) or if
the loop found no code point argument (line 61); otherwise parse the
chosen argument and query the engine with it, in JSON mode iff a
"--json" option was seen. -/
def runMain (args : List String) : MainResult :=
  if args.isEmpty then .usage
  else
    match (scanArgs args).1 with
    | none => .usage
    | some s => .query (parseCodepoint s) (scanArgs args).2

/-! ## The Query Engine, modelled from the spec

`example.c` includes and calls `codepoints.h`, which is not among the
repository's visible sources.  The definitions below are therefore
written from the specification's §3 (data model) and §4.2 (operations)
wording, for the claims that are about the engine itself. -/

/-- Modelled from the spec: the closed `category` tag set of §3, for the
missing `codepoints.h`. -/
inductive Category where
  | letterLower | letterUpper | letterTitle | letterOther
  | digit | space | control | punctuation | unassigned | surrogate | other
deriving DecidableEq

/-- Modelled from the spec: a range's `caseDelta` (§3): either a uniform
signed offset triple (lower, upper, title) valid across the range, or a
marker pointing into the exception table. -/
inductive CaseRule where
  | uniform : Int → Int → Int → CaseRule
  | exceptionMarker : CaseRule
deriving DecidableEq

/-- Modelled from the spec: a `CodepointRange` of §3 — inclusive bounds
(`last` is the spec's `end`, a Lean keyword), category, flag bit set,
optional digit value, and case rule. -/
structure CodepointRange where
  start : Int
  last : Int
  category : Category
  flags : Nat
  digitValue : Option Int
  caseDelta : CaseRule
deriving DecidableEq

/-- Modelled from the spec: an Exception Table entry (§3) — a single
code point's exact (lower, upper, title) triple. -/
structure ExceptionEntry where
  codepoint : Int
  lower : Int
  upper : Int
  title : Int
deriving DecidableEq

/-- Modelled from the spec: the immutable tables the Query Engine holds
(§2, §4.2): the sorted Range Table and the Exception Table. -/
structure QueryEngine where
  ranges : List CodepointRange
  exceptions : List ExceptionEntry

/-- Modelled from the spec: `classify(cp)` (§4.2) — the greatest range
with `start ≤ cp` if it also satisfies `cp ≤ end`, otherwise the
implicit unassigned gap (`none`).  With the ranges sorted by `start`,
the greatest such range is the last one the filter keeps; the spec's
binary search is an implementation of this. -/
def classify (t : QueryEngine) (cp : Int) : Option CodepointRange :=
  match (t.ranges.filter fun rg => decide (rg.start ≤ cp)).getLast? with
  | some rg => if cp ≤ rg.last then some rg else none
  | none => none

/-- Modelled from the spec: the categories that are "a cased letter of
the relevant case direction" (§4.2) for a lower-case mapping: upper and
title case letters map down. -/
def hasLowerDirection : Category → Bool
  | .letterUpper => true
  | .letterTitle => true
  | _ => false

/-- Modelled from the spec: categories with an upper-case direction:
lower and title case letters map up. -/
def hasUpperDirection : Category → Bool
  | .letterLower => true
  | .letterTitle => true
  | _ => false

/-- Modelled from the spec: categories with a title-case direction:
lower and upper case letters map to title case. -/
def hasTitleDirection : Category → Bool
  | .letterLower => true
  | .letterUpper => true
  | _ => false

/-- Modelled from the spec: the Exception Table lookup (§3, §4.2). -/
def findException (t : QueryEngine) (cp : Int) : Option ExceptionEntry :=
  t.exceptions.find? fun e => decide (e.codepoint = cp)

/-- Modelled from the spec: `toLower(cp)` (§4.2) — the exception
table's exact value when `cp` is listed there, the uniform delta when
`cp`'s range has one and the category has the lower direction, and
`cp` itself otherwise.  Total: it never signals failure. -/
def codepoint_tolower (t : QueryEngine) (cp : Int) : Int :=
  match findException t cp with
  | some e => e.lower
  | none =>
    match classify t cp with
    | some rg =>
      match rg.caseDelta with
      | .uniform dl _ _ => if hasLowerDirection rg.category then cp + dl else cp
      | .exceptionMarker => cp
    | none => cp

/-- Modelled from the spec: `toUpper(cp)` (§4.2), as for `toLower`. -/
def codepoint_toupper (t : QueryEngine) (cp : Int) : Int :=
  match findException t cp with
  | some e => e.upper
  | none =>
    match classify t cp with
    | some rg =>
      match rg.caseDelta with
      | .uniform _ du _ => if hasUpperDirection rg.category then cp + du else cp
      | .exceptionMarker => cp
    | none => cp

/-- Modelled from the spec: `toTitle(cp)` (§4.2), as for `toLower`. -/
def codepoint_totitle (t : QueryEngine) (cp : Int) : Int :=
  match findException t cp with
  | some e => e.title
  | none =>
    match classify t cp with
    | some rg =>
      match rg.caseDelta with
      | .uniform _ _ dt => if hasTitleDirection rg.category then cp + dt else cp
      | .exceptionMarker => cp
    | none => cp

/-- Modelled from the spec: "cp has no defined lower-case mapping":
not listed in the Exception Table, and not in a range whose uniform
delta applies in the lower direction. -/
def noLowerMapping (t : QueryEngine) (cp : Int) : Bool :=
  (findException t cp).isNone &&
    (match classify t cp with
     | some rg =>
       match rg.caseDelta with
       | .uniform _ _ _ => !hasLowerDirection rg.category
       | .exceptionMarker => true
     | none => true)

/-- Modelled from the spec: no defined upper-case mapping. -/
def noUpperMapping (t : QueryEngine) (cp : Int) : Bool :=
  (findException t cp).isNone &&
    (match classify t cp with
     | some rg =>
       match rg.caseDelta with
       | .uniform _ _ _ => !hasUpperDirection rg.category
       | .exceptionMarker => true
     | none => true)

/-- Modelled from the spec: no defined title-case mapping. -/
def noTitleMapping (t : QueryEngine) (cp : Int) : Bool :=
  (findException t cp).isNone &&
    (match classify t cp with
     | some rg =>
       match rg.caseDelta with
       | .uniform _ _ _ => !hasTitleDirection rg.category
       | .exceptionMarker => true
     | none => true)

/-- Modelled from the spec: `isValid(cp)` — true iff `0 ≤ cp ≤ 0x10FFFF`
and `cp` does not fall in the surrogate range 0xD800..0xDFFF (§4.2);
`codepoint_isvalid` of the missing codepoints.h. -/
def codepoint_isvalid (cp : Int) : Bool :=
  decide (0 ≤ cp) && decide (cp ≤ 0x10FFFF) &&
    !(decide (0xD800 ≤ cp) && decide (cp ≤ 0xDFFF))

/-! ## The two output modes' attribute lists (example.c lines 83-126)

Each printed attribute is recorded with the engine call that produces
its value, so that the flag-derived attributes (`codepoint_toflags`
masked with a flag constant) are distinguishable from the rest. -/

/-- The flag constants used by the JSON output's `codepoint_toflags`
tests: CODEPOINT_LINEBREAK, CODEPOINT_CONNECTING, CODEPOINT_FORMATTING,
CODEPOINT_COMBINING. -/
inductive FlagMask where
  | linebreak | connecting | formatting | combining
deriving DecidableEq

/-- The engine function a printed attribute is computed from.
`flagsTest m` stands for `codepoint_toflags(c) & CODEPOINT_M`. -/
inductive EngineCall where
  | tolower | toupper | totitle | todigit
  | islower | isupper | istitle | isdigit | isspace
  | iscntrl | ispunct | isemoji | isprint | isalpha | isalnum | isvalid
  | flagsTest : FlagMask → EngineCall
deriving DecidableEq

/-- True exactly for the `codepoint_toflags`-derived attributes. -/
def isFlagCall : EngineCall → Bool
  | .flagsTest _ => true
  | _ => false

/-- The key/engine-call pairs printed by the JSON branch of example.c
(lines 85-106), in print order. -/
def jsonOutputLines : List (String × EngineCall) :=
  [("toLowerCase", .tolower), ("toUpperCase", .toupper),
   ("toTitleCase", .totitle), ("toDigit", .todigit),
   ("isLowerCase", .islower), ("isUpperCase", .isupper),
   ("isTitleCase", .istitle), ("isDigit", .isdigit),
   ("isSpaceChar", .isspace), ("isLineBreak", .flagsTest .linebreak),
   ("isISOControl", .iscntrl), ("isPunctuation", .ispunct),
   ("isConnectingChar", .flagsTest .connecting),
   ("isFormattingChar", .flagsTest .formatting),
   ("isCombiningChar", .flagsTest .combining),
   ("isEmoji", .isemoji), ("isPrintable", .isprint),
   ("isAlpha", .isalpha), ("isAlphaNumeric", .isalnum),
   ("isValidCodePoint", .isvalid)]

/-- The attribute/engine-call pairs printed by the line-per-attribute
branch of example.c (lines 110-125), in print order. -/
def textOutputLines : List (String × EngineCall) :=
  [("toLowerCase", .tolower), ("toUpperCase", .toupper),
   ("toTitleCase", .totitle), ("toDigit", .todigit),
   ("isLowerCase", .islower), ("isUpperCase", .isupper),
   ("isTitleCase", .istitle), ("isDigit", .isdigit),
   ("isSpaceChar", .isspace), ("isISOControl", .iscntrl),
   ("isPunctuation", .ispunct), ("isEmoji", .isemoji),
   ("isPrintable", .isprint), ("isAlpha", .isalpha),
   ("isAlphaNumeric", .isalnum), ("isValidCodePoint", .isvalid)]

/-! ## Lemmas about the argument loop -/

/-- Prepending to a list either keeps its last element or supplies one. -/
lemma getLast?_cons_or {α : Type} (a : α) (l : List α) :
    (a :: l).getLast? = Option.or l.getLast? (some a) := by
  induction l generalizing a with
  | nil => rfl
  | cons b bs ih =>
    rw [List.getLast?_cons_cons, ih b]
    cases bs.getLast? <;> rfl

/-- The first loop variable (`codepoint_argument_index`) ends as the last
non-option argument, falling back to the initial state. -/
lemma scan_fst (args : List String) (st : Option String × Bool) :
    (List.foldl scanStep st args).1 =
      Option.or ((args.filter fun a => !isOption a).getLast?) st.1 := by
  induction args generalizing st with
  | nil => rfl
  | cons a as ih =>
    rw [List.foldl_cons, ih]
    by_cases h : isOption a = true
    · have hstep : (scanStep st a).1 = st.1 := by simp [scanStep, h]
      have hfil : List.filter (fun x => !isOption x) (a :: as) =
          List.filter (fun x => !isOption x) as := by
        simp [List.filter_cons, h]
      rw [hstep, hfil]
    · have h' : isOption a = false := by simpa using h
      have hstep : (scanStep st a).1 = some a := by simp [scanStep, h']
      have hfil : List.filter (fun x => !isOption x) (a :: as) =
          a :: List.filter (fun x => !isOption x) as := by
        simp [List.filter_cons, h']
      rw [hstep, hfil, getLast?_cons_or]
      cases (List.filter (fun x => !isOption x) as).getLast? <;> rfl

/-- The second loop variable (`output_json`) ends true iff it started true
or some argument equals "--json". -/
lemma scan_snd (args : List String) (st : Option String × Bool) :
    (List.foldl scanStep st args).2 =
      (st.2 || args.any fun a => a == "--json") := by
  induction args generalizing st with
  | nil => simp
  | cons a as ih =>
    rw [List.foldl_cons, ih]
    have hstep : (scanStep st a).2 = (st.2 || (a == "--json")) := by
      by_cases hb : a = "--json"
      · subst hb; simp [scanStep, isOption]
      · have hbeq : (a == "--json") = false := by simpa using hb
        simp [scanStep, hbeq]
        by_cases ho : isOption a = true <;> simp [ho]
    rw [hstep, List.any_cons, Bool.or_assoc]

/-- `output_json` is exactly "some argument equals --json". -/
lemma scanArgs_snd (args : List String) :
    (scanArgs args).2 = decide ("--json" ∈ args) := by
  rw [scanArgs, scan_snd, Bool.false_or]
  induction args with
  | nil => simp
  | cons a as ih =>
    rw [List.any_cons, ih]
    by_cases hb : a = "--json"
    · subst hb; simp
    · have hbeq : (a == "--json") = false := by simpa using hb
      have hne : "--json" ≠ a := fun hh => hb hh.symm
      simp [hbeq, List.mem_cons, hne]

/-- `codepoint_argument_index` resolves to the last non-option argument. -/
lemma scanArgs_fst (args : List String) :
    (scanArgs args).1 = lastNonOption args := by
  rw [scanArgs, scan_fst, lastNonOption]
  cases ((args.filter fun a => !isOption a).getLast?) <;> rfl

/-- When every argument is an option, main prints usage and quits. -/
lemma runMain_all_options (args : List String)
    (h : ∀ a ∈ args, isOption a = true) : runMain args = .usage := by
  cases args with
  | nil => rfl
  | cons a as =>
    have hfil : ((a :: as).filter fun x => !isOption x) = [] := by
      simp only [List.filter_eq_nil_iff]
      intro x hx
      simp [h x hx]
    have hnone : (scanArgs (a :: as)).1 = none := by
      rw [scanArgs_fst, lastNonOption, hfil]; rfl
    simp [runMain, hnone]

/-- When a code point argument exists, main queries the engine with the
last non-option argument's parse, in JSON mode iff "--json" appears. -/
lemma runMain_query (args : List String) (s : String)
    (h : lastNonOption args = some s) :
    runMain args = .query (parseCodepoint s) (decide ("--json" ∈ args)) := by
  have hne : args ≠ [] := by
    intro hnil
    subst hnil
    simp [lastNonOption] at h
  have hfst : (scanArgs args).1 = some s := by rw [scanArgs_fst, h]
  have hemp : args.isEmpty = false := by simpa using hne
  simp [runMain, hemp, hfst, scanArgs_snd]

/-! ## Evaluating the parser on well-formed numerals -/

/-- Unfolded arithmetic form of `isHexDigit`. -/
lemma hexDigit_facts {c : Char} (h : isHexDigit c = true) :
    (48 ≤ c.toNat ∧ c.toNat ≤ 57) ∨ (97 ≤ c.toNat ∧ c.toNat ≤ 102) ∨
      (65 ≤ c.toNat ∧ c.toNat ≤ 70) := by
  simpa [isHexDigit, or_assoc] using h

/-- On a nonempty all-hex-digit string whose value fits in a `long`,
`strtol` with base 16 returns exactly the digits' value. -/
lemma strtol16_hex_cons (c : Char) (r : List Char)
    (h2 : ∀ x ∈ c :: r, isHexDigit x = true)
    (h3 : (digitsVal (c :: r) : Int) ≤ 2 ^ 63 - 1) :
    strtol16 (c :: r) = digitsVal (c :: r) := by
  have hc := hexDigit_facts (h2 c (List.mem_cons_self c r))
  have hspace : isCSpace c = false := by simp [isCSpace]; omega
  have hdrop : (c :: r).dropWhile isCSpace = c :: r :=
    List.dropWhile_cons_of_neg (by simp [hspace])
  have e43 : (c.toNat == 43) = false := by simp; omega
  have e45 : (c.toNat == 45) = false := by simp; omega
  have hsign : afterSign (c :: r) = (false, c :: r) := by
    simp [afterSign, e43, e45]
  have h0x : after0x (c :: r) = c :: r := by
    cases r with
    | nil => rfl
    | cons b r2 =>
      have hb := hexDigit_facts (h2 b (by simp))
      have e120 : (b.toNat == 120) = false := by simp; omega
      have e88 : (b.toNat == 88) = false := by simp; omega
      simp [after0x, e120, e88]
  have htake : (c :: r).takeWhile isHexDigit = c :: r :=
    List.takeWhile_eq_self_iff.mpr (by intro x hx; simp [h2 x hx])
  simp [strtol16, hdrop, hsign, h0x, htake]
  omega

/-- Wrap-around to 32 bits is the identity below `2^31`. -/
lemma toInt32_of_small {n : Int} (h0 : 0 ≤ n) (h1 : n < 2 ^ 31) :
    toInt32 n = n := by
  unfold toInt32; omega

/-- A plain numeral of hex digits (no prefix) parses to its base-16
value when that value fits in 31 bits. -/
lemma parseCodepoint_hex (c : Char) (r : List Char)
    (h2 : ∀ x ∈ c :: r, isHexDigit x = true)
    (h3 : digitsVal (c :: r) < 2 ^ 31) :
    parseCodepoint (String.mk (c :: r)) = digitsVal (c :: r) := by
  have hc := hexDigit_facts (h2 c (List.mem_cons_self c r))
  have e117 : (c.toNat == 117) = false := by simp; omega
  have e85 : (c.toNat == 85) = false := by simp; omega
  have hstrip : stripU (c :: r) = c :: r := by simp [stripU, e117, e85]
  have hval : (digitsVal (c :: r) : Int) ≤ 2 ^ 63 - 1 := by omega
  show toInt32 (strtol16 (stripU (c :: r))) = _
  rw [hstrip, strtol16_hex_cons c r h2 hval]
  exact toInt32_of_small (by omega) (by omega)

/-- A "U"/"u"-prefixed numeral, with or without a following '+',
parses to the base-16 value of the digits after the prefix. -/
lemma parseCodepoint_u (c0 : Char) (plus : Bool) (c : Char) (r : List Char)
    (h0 : c0.toNat = 85 ∨ c0.toNat = 117)
    (h2 : ∀ x ∈ c :: r, isHexDigit x = true)
    (h3 : digitsVal (c :: r) < 2 ^ 31) :
    parseCodepoint (String.mk (c0 :: (if plus then '+' :: c :: r else c :: r)))
      = digitsVal (c :: r) := by
  have hc := hexDigit_facts (h2 c (List.mem_cons_self c r))
  have hu : (c0.toNat == 117 || c0.toNat == 85) = true := by simp; omega
  have e43 : (c.toNat == 43) = false := by simp; omega
  have hplus : (Char.toNat '+' == 43) = true := by decide
  have hstrip : stripU (c0 :: (if plus then '+' :: c :: r else c :: r))
      = c :: r := by
    cases plus with
    | true => simp [stripU, hu, hplus]
    | false => simp [stripU, hu, e43]
  have hval : (digitsVal (c :: r) : Int) ≤ 2 ^ 63 - 1 := by omega
  show toInt32 (strtol16 (stripU _)) = _
  rw [hstrip, strtol16_hex_cons c r h2 hval]
  exact toInt32_of_small (by omega) (by omega)

/-- A single-argument invocation with a non-option argument queries the
engine on that argument's parse, without JSON. -/
lemma runMain_single (s : String) (h : isOption s = false) :
    runMain [s] = .query (parseCodepoint s) false := by
  have hscan : scanArgs [s] = (some s, false) := by
    simp [scanArgs, scanStep, h]
  simp [runMain, hscan]

example : runMain [] = .usage := by decide
example : runMain ["--json"] = .usage := by decide
example : runMain ["41"] = .query 65 false := by decide
example : runMain ["--json", "41"] = .query 65 true := by decide
example : runMain ["U+0041"] = .query 65 false := by decide
example : runMain ["u41"] = .query 65 false := by decide
example : runMain ["65"] = .query 101 false := by decide
example : runMain ["zz"] = .query 0 false := by decide
example : runMain ["-x", "A"] = .query 10 false := by decide

/-- A non-option argument among the arguments guarantees the loop finds
a code point argument. -/
lemma exists_lastNonOption (args : List String) (a : String)
    (ha : a ∈ args) (hopt : isOption a = false) :
    ∃ s, lastNonOption args = some s := by
  have hne : (args.filter fun x => !isOption x) ≠ [] := by
    intro hnil
    have := (List.filter_eq_nil_iff.mp hnil) a ha
    simp [hopt] at this
  rw [lastNonOption]
  cases hgl : (args.filter fun x => !isOption x).getLast? with
  | none => exact absurd (List.getLast?_eq_none_iff.mp hgl) hne
  | some s => exact ⟨s, rfl⟩

/-! ## The claims -/

/-- Claim C1, counterexample: the front end does not parse a plain
decimal numeral as decimal.  The invocation `unicode 65` queries code
point 0x65 = 101, not 65: `strtol(..., 16)` reads every numeral in
base 16 (example.c line 81). -/
theorem c1_counterexample :
    runMain ["65"] = MainResult.query 101 false ∧ (101 : Int) ≠ 65 :=
  ⟨by decide, by decide⟩

/-- Claim C1 (amended): a plain numeral is parsed as hexadecimal, never
as decimal — a code point argument made of hex digits (which includes
every plain decimal numeral) yields the code point equal to its value
read in base 16, so "65" queries 0x65 = 101. -/
theorem c1_plain_numeral_is_hex (c : Char) (r : List Char)
    (h2 : ∀ x ∈ c :: r, isHexDigit x = true)
    (h3 : digitsVal (c :: r) < 2 ^ 31) :
    runMain [String.mk (c :: r)]
      = MainResult.query (digitsVal (c :: r)) false := by
  have hc := hexDigit_facts (h2 c (List.mem_cons_self c r))
  have hopt : isOption (String.mk (c :: r)) = false := by
    show (c.toNat == 45) = false
    simp; omega
  rw [runMain_single _ hopt, parseCodepoint_hex c r h2 h3]

/-- Claim C1 witness: the amended claim at the concrete input "65". -/
theorem c1_witness :
    runMain [String.mk ['6', '5']] = MainResult.query 101 false := by
  have e : ((digitsVal ['6', '5'] : Nat) : Int) = 101 := by decide
  have h := c1_plain_numeral_is_hex '6' ['5'] (by decide) (by decide)
  rw [e] at h
  exact h

/-- Claim C2, counterexample: an unparseable numeral is not rejected.
The invocation `unicode zz` prints no usage message, calls the query
engine on code point 0 (strtol's result for a string with no hex
digits), and exits with status 0 — contradicting "prints a usage
message, exits with a non-zero status, and never calls any Query
Engine function". -/
theorem c2_counterexample :
    runMain ["zz"] = MainResult.query 0 false ∧
      (runMain ["zz"]).exitCode = 0 :=
  ⟨by decide, by decide⟩

/-- Claim C2 (amended): an unparseable numeral is not rejected:
whatever text the chosen code point argument holds, the front end
queries the engine with its strtol-parsed value (0 when no hex digits
lead the string) and exits with status 0. -/
theorem c2_unparseable_reaches_engine (args : List String) (s : String)
    (h : lastNonOption args = some s) :
    runMain args
        = MainResult.query (parseCodepoint s) (decide ("--json" ∈ args)) ∧
      (runMain args).exitCode = 0 := by
  have hq := runMain_query args s h
  exact ⟨hq, by rw [hq]; rfl⟩

/-- Claim C2 witness: the amended claim at the concrete invocation
`unicode --json q`: "q" has no hex digits, the engine is queried with
0, the exit status is 0. -/
theorem c2_witness :
    runMain ["--json", "q"] = MainResult.query 0 true ∧
      (runMain ["--json", "q"]).exitCode = 0 := by
  have h := c2_unparseable_reaches_engine ["--json", "q"] "q" (by decide)
  have e1 : parseCodepoint "q" = 0 := by decide
  have e2 : decide ("--json" ∈ ["--json", "q"]) = true := by decide
  rw [e1, e2] at h
  exact h

/-- Claim C3: with no code point argument (no arguments at all, or
only option arguments) the program prints the usage message and exits
non-zero; with a code point argument supplied it exits with status 0. -/
theorem c3_exit_status (args : List String) :
    ((∀ a ∈ args, isOption a = true) →
        runMain args = MainResult.usage ∧ (runMain args).exitCode ≠ 0) ∧
    ((∃ a ∈ args, isOption a = false) → (runMain args).exitCode = 0) := by
  constructor
  · intro h
    have hu := runMain_all_options args h
    exact ⟨hu, by rw [hu]; decide⟩
  · rintro ⟨a, ha, hopt⟩
    obtain ⟨s, hs⟩ := exists_lastNonOption args a ha hopt
    rw [runMain_query args s hs]
    rfl

/-- Claim C3 witness: `unicode --json` quits with usage and status 1;
`unicode A` exits with status 0. -/
theorem c3_witness :
    (runMain ["--json"] = MainResult.usage ∧
        (runMain ["--json"]).exitCode ≠ 0) ∧
      (runMain ["A"]).exitCode = 0 :=
  ⟨(c3_exit_status ["--json"]).1 (by decide),
   (c3_exit_status ["A"]).2 ⟨"A", by decide, by decide⟩⟩

/-- Claim C4: an argument beginning with 'U' or 'u', optionally
followed by '+', is read as hexadecimal digits and the code point
equal to their value is queried ("U+0041", "u+41" and "U41" all query
0x41). -/
theorem c4_u_prefixed_hex (c0 : Char) (plus : Bool) (c : Char)
    (r : List Char)
    (h0 : c0.toNat = 85 ∨ c0.toNat = 117)
    (h2 : ∀ x ∈ c :: r, isHexDigit x = true)
    (h3 : digitsVal (c :: r) < 2 ^ 31) :
    runMain [String.mk (c0 :: (if plus then '+' :: c :: r else c :: r))]
      = MainResult.query (digitsVal (c :: r)) false := by
  have hopt : isOption
      (String.mk (c0 :: (if plus then '+' :: c :: r else c :: r)))
      = false := by
    show (c0.toNat == 45) = false
    simp; omega
  rw [runMain_single _ hopt, parseCodepoint_u c0 plus c r h0 h2 h3]

/-- Claim C4 witness: "U+0041" queries code point 0x41 = 65. -/
theorem c4_witness :
    runMain [String.mk ['U', '+', '0', '0', '4', '1']]
      = MainResult.query 65 false := by
  have e : ((digitsVal ['0', '0', '4', '1'] : Nat) : Int) = 65 := by decide
  have h := c4_u_prefixed_hex 'U' true '0' ['0', '4', '1']
    (by decide) (by decide) (by decide)
  rw [e] at h
  exact h

/-- Claim C5: whenever a code point argument is supplied, the output is
the JSON object exactly when some argument equals "--json" (any
position), and the line-per-attribute text otherwise. -/
theorem c5_json_switch (args : List String)
    (h : ∃ a ∈ args, isOption a = false) :
    ∃ cp, runMain args = MainResult.query cp (decide ("--json" ∈ args)) := by
  obtain ⟨a, ha, hopt⟩ := h
  obtain ⟨s, hs⟩ := exists_lastNonOption args a ha hopt
  exact ⟨parseCodepoint s, runMain_query args s hs⟩

/-- Claim C5 witness: `unicode --json 41` emits JSON, `unicode 41`
does not. -/
theorem c5_witness :
    (∃ cp, runMain ["--json", "41"] = MainResult.query cp true) ∧
      (∃ cp, runMain ["41"] = MainResult.query cp false) := by
  have e1 : decide ("--json" ∈ ["--json", "41"]) = true := by decide
  have e2 : decide ("--json" ∈ ["41"]) = false := by decide
  have h1 := c5_json_switch ["--json", "41"] ⟨"41", by decide, by decide⟩
  have h2 := c5_json_switch ["41"] ⟨"41", by decide, by decide⟩
  rw [e1] at h1
  rw [e2] at h2
  exact ⟨h1, h2⟩

/-- Claim C6: `codepoint_isvalid(cp)` is true iff cp is in 0..0x10FFFF
and outside the surrogate range 0xD800..0xDFFF; in particular it is
false on every surrogate and on everything above 0x10FFFF.  The engine
is not among the visible sources, so `codepoint_isvalid` is modelled
from the spec. -/
theorem c6_isvalid (cp : Int) :
    (codepoint_isvalid cp = true ↔
      (0 ≤ cp ∧ cp ≤ 0x10FFFF ∧ ¬ (0xD800 ≤ cp ∧ cp ≤ 0xDFFF))) ∧
    (0xD800 ≤ cp → cp ≤ 0xDFFF → codepoint_isvalid cp = false) ∧
    (0x10FFFF < cp → codepoint_isvalid cp = false) := by
  refine ⟨?_, ?_, ?_⟩ <;> simp [codepoint_isvalid] <;> omega

/-- Claim C6 witness: 0xD800 and 0x110000 are invalid, 'A' (65) is
valid. -/
theorem c6_witness :
    codepoint_isvalid 0xD800 = false ∧
      codepoint_isvalid 0x110000 = false ∧
      codepoint_isvalid 65 = true :=
  ⟨(c6_isvalid 0xD800).2.1 (by decide) (by decide),
   (c6_isvalid 0x110000).2.2 (by decide),
   (c6_isvalid 65).1.mpr (by decide)⟩

/-- Claim C7: the case mappings are total functions (they return a
value for every engine and every code point — never a failure), and a
code point with no defined mapping in the relevant direction maps to
itself.  The engine is not among the visible sources, so the mappings
are modelled from the spec (§4.2). -/
theorem c7_case_identity (t : QueryEngine) (cp : Int) :
    (noLowerMapping t cp = true → codepoint_tolower t cp = cp) ∧
    (noUpperMapping t cp = true → codepoint_toupper t cp = cp) ∧
    (noTitleMapping t cp = true → codepoint_totitle t cp = cp) := by
  refine ⟨?_, ?_, ?_⟩ <;> intro h
  · cases hfe : findException t cp with
    | some e => simp [noLowerMapping, hfe] at h
    | none =>
      cases hcl : classify t cp with
      | none => simp [codepoint_tolower, hfe, hcl]
      | some rg =>
        cases hcd : rg.caseDelta with
        | exceptionMarker => simp [codepoint_tolower, hfe, hcl, hcd]
        | uniform dl du dt =>
          simp [noLowerMapping, hfe, hcl, hcd] at h
          simp [codepoint_tolower, hfe, hcl, hcd, h]
  · cases hfe : findException t cp with
    | some e => simp [noUpperMapping, hfe] at h
    | none =>
      cases hcl : classify t cp with
      | none => simp [codepoint_toupper, hfe, hcl]
      | some rg =>
        cases hcd : rg.caseDelta with
        | exceptionMarker => simp [codepoint_toupper, hfe, hcl, hcd]
        | uniform dl du dt =>
          simp [noUpperMapping, hfe, hcl, hcd] at h
          simp [codepoint_toupper, hfe, hcl, hcd, h]
  · cases hfe : findException t cp with
    | some e => simp [noTitleMapping, hfe] at h
    | none =>
      cases hcl : classify t cp with
      | none => simp [codepoint_totitle, hfe, hcl]
      | some rg =>
        cases hcd : rg.caseDelta with
        | exceptionMarker => simp [codepoint_totitle, hfe, hcl, hcd]
        | uniform dl du dt =>
          simp [noTitleMapping, hfe, hcl, hcd] at h
          simp [codepoint_totitle, hfe, hcl, hcd, h]

/-- Claim C7 witness: on an engine with empty tables, code point 5 has
no mapping in any direction and all three mappings return it
unchanged. -/
theorem c7_witness :
    codepoint_tolower ⟨[], []⟩ 5 = 5 ∧
      codepoint_toupper ⟨[], []⟩ 5 = 5 ∧
      codepoint_totitle ⟨[], []⟩ 5 = 5 :=
  ⟨(c7_case_identity ⟨[], []⟩ 5).1 (by decide),
   (c7_case_identity ⟨[], []⟩ 5).2.1 (by decide),
   (c7_case_identity ⟨[], []⟩ 5).2.2 (by decide)⟩

/-- Claim C8: an argument beginning with '-' that is not "--json" is
silently ignored — the program behaves exactly as if the argument were
absent, so it is not taken as the code point, does not enable JSON, and
does not by itself cause an error exit. -/
theorem c8_unknown_options_ignored (l r : List String) (a : String)
    (h1 : isOption a = true) (h2 : a ≠ "--json") :
    runMain (l ++ a :: r) = runMain (l ++ r) := by
  have hbeq : (a == "--json") = false := by simpa using h2
  have hstep : ∀ st : Option String × Bool, scanStep st a = st := by
    intro st
    simp [scanStep, h1, hbeq]
  have hscan : ∀ st : Option String × Bool,
      List.foldl scanStep st (l ++ a :: r)
        = List.foldl scanStep st (l ++ r) := by
    intro st
    rw [List.foldl_append, List.foldl_append, List.foldl_cons, hstep]
  by_cases hlr : l ++ r = []
  · obtain ⟨hl, hr⟩ := List.append_eq_nil.mp hlr
    subst hl
    subst hr
    have hone : scanArgs [a] = (none, false) := by
      show List.foldl scanStep (none, false) [a] = (none, false)
      rw [List.foldl_cons, hstep]
      rfl
    simp [runMain, hone]
  · have hemp1 : (l ++ a :: r).isEmpty = false := by simp
    have hemp2 : (l ++ r).isEmpty = false := by simp [hlr]
    simp only [runMain, hemp1, hemp2, scanArgs, hscan]

/-- Claim C8 witness: `unicode -x 41` behaves as `unicode 41`. -/
theorem c8_witness : runMain ["-x", "41"] = runMain ["41"] :=
  c8_unknown_options_ignored [] ["41"] "-x" (by decide) (by decide)

/-- Claim C9: with several non-option arguments, the last one is the
code point queried; the earlier ones are silently discarded. -/
theorem c9_last_argument_wins (pre mid post : List String) (s t : String)
    (hs : isOption s = false) (ht : isOption t = false)
    (hmid : ∀ a ∈ mid, isOption a = true)
    (hpost : ∀ a ∈ post, isOption a = true) :
    ∃ j, runMain (pre ++ s :: (mid ++ t :: post))
      = MainResult.query (parseCodepoint t) j := by
  have hmid' : mid.filter (fun x => !isOption x) = [] := by
    simp only [List.filter_eq_nil_iff]
    intro x hx
    simp [hmid x hx]
  have hpost' : post.filter (fun x => !isOption x) = [] := by
    simp only [List.filter_eq_nil_iff]
    intro x hx
    simp [hpost x hx]
  have hshape : (pre ++ s :: (mid ++ t :: post)).filter
        (fun x => !isOption x)
      = ((pre.filter fun x => !isOption x) ++ [s]) ++ [t] := by
    simp [List.filter_append, List.filter_cons, hs, ht, hmid', hpost']
  have hlast : lastNonOption (pre ++ s :: (mid ++ t :: post)) = some t := by
    rw [lastNonOption, hshape, List.getLast?_concat]
  exact ⟨_, runMain_query _ t hlast⟩

/-- Claim C9 witness: `unicode 41 55` queries the parse of "55"
(0x55 = 85), discarding "41". -/
theorem c9_witness :
    ∃ j, runMain ["41", "55"] = MainResult.query 85 j := by
  obtain ⟨j, hj⟩ := c9_last_argument_wins [] [] [] "41" "55"
    (by decide) (by decide) (by decide) (by decide)
  have e : parseCodepoint "55" = 85 := by decide
  rw [e] at hj
  exact ⟨j, hj⟩

/-- Claim C10: the JSON mode prints exactly four attributes derived
from `codepoint_toflags` — isLineBreak, isConnectingChar,
isFormattingChar, isCombiningChar — and the text mode prints none of
them; removing them from the JSON list leaves precisely the sixteen
attributes of the text mode, in the same order. -/
theorem c10_output_attributes :
    jsonOutputLines.filter (fun p => !isFlagCall p.2) = textOutputLines ∧
    (jsonOutputLines.filter fun p => isFlagCall p.2).map Prod.fst
      = ["isLineBreak", "isConnectingChar", "isFormattingChar",
         "isCombiningChar"] ∧
    textOutputLines.all (fun p => !isFlagCall p.2) = true ∧
    textOutputLines.length = 16 ∧ jsonOutputLines.length = 20 :=
  ⟨rfl, rfl, rfl, rfl, rfl⟩
